import Mathlib

/-!
Verification of the rigid-registration and fallback-cascade engine of
CascadedPointCloudFit against its design specification.

The development is a shallow embedding of the Python sources under
src/cascaded_fit.  Point clouds are lists of 3-vectors with exact rational
coordinates (a rational is always finite, so numpy finiteness checks are noted
where they occur in the source and always pass).  Transforms are 4x4 rational
matrices.  External collaborators (numpy SVD, the scipy cKDTree spatial index,
the open3d FGR and ICP fitters) are represented as follows: the spatial index
by its semantic contract (true nearest-neighbour queries, with Euclidean
distances obtained as real square roots of exact rational squared distances),
SVD by an oracle function parameter, and the open3d fitter outcomes by
parameters of the orchestrator.  All control flow, validation, metric and
update arithmetic is translated directly from the Python sources.
-/

namespace CascadedFit

open scoped Matrix

/-- A 3-D point: one row of an Nx3 numpy array, with exact rational
coordinates. -/
abbrev Pt : Type := Fin 3 → ℚ

/-- A 3x3 rational matrix (rotation blocks, covariance matrices). -/
abbrev Mat3 : Type := Matrix (Fin 3) (Fin 3) ℚ

/-- A 4x4 rational matrix (homogeneous rigid transforms). -/
abbrev Mat4 : Type := Matrix (Fin 4) (Fin 4) ℚ

/-- numpy's default absolute tolerance 1e-8 for np.allclose / np.isclose. -/
def npAtol : ℚ := 1 / 100000000

/-- numpy's default relative tolerance 1e-5 for np.allclose / np.isclose. -/
def npRtol : ℚ := 1 / 100000

/-- The absolute tolerance 1e-6 passed explicitly by
TransformationValidator.validate for the orthogonality and determinant
checks (the relative tolerance stays at the numpy default). -/
def atol6 : ℚ := 1 / 1000000

/-- np.isclose(a, b, rtol, atol) on scalars: |a - b| <= atol + rtol * |b|. -/
def npIsClose (a b atol rtol : ℚ) : Prop := |a - b| ≤ atol + rtol * |b|

instance (a b atol rtol : ℚ) : Decidable (npIsClose a b atol rtol) := by
  unfold npIsClose; infer_instance

/-- np.allclose on 3x3 matrices, entrywise np.isclose. -/
def npAllCloseM (A B : Mat3) (atol rtol : ℚ) : Prop :=
  ∀ i j, npIsClose (A i j) (B i j) atol rtol

instance (A B : Mat3) (atol rtol : ℚ) : Decidable (npAllCloseM A B atol rtol) := by
  unfold npAllCloseM; infer_instance

/-- The expected bottom row [0, 0, 0, 1] of a homogeneous transform. -/
def bottomRow : Fin 4 → ℚ := ![0, 0, 0, 1]

/-- np.allclose(transform[3, :], [0, 0, 0, 1]) with numpy default tolerances,
as used by TransformationValidator.validate. -/
def npBottomClose (T : Mat4) : Prop :=
  ∀ j, npIsClose (T 3 j) (bottomRow j) npAtol npRtol

instance (T : Mat4) : Decidable (npBottomClose T) := by
  unfold npBottomClose; infer_instance

/-- The np.allclose(points, 0) check of PointCloudValidator.validate: with b=0
the relative term vanishes, so every coordinate must be within npAtol of 0. -/
def npAllZero (points : List Pt) : Prop := ∀ p ∈ points, ∀ i, |p i| ≤ npAtol

instance (points : List Pt) : Decidable (npAllZero points) := by
  unfold npAllZero; infer_instance

/-- The error taxonomy of cascaded_fit.utils.exceptions that validation can
raise.  InsufficientPointsError stores the actual and required counts. -/
inductive ValidationError where
  | insufficientPoints (actual required : ℕ)
  | tooManyPoints (actual maximum : ℕ)
  | allZeros
  | badBottomRow
  | notOrthogonal
  | badDeterminant
  deriving DecidableEq

/-- Python exceptions that cross the boundaries modelled here.  In the source,
ConvergenceError is a subclass of RegistrationError; handlers that catch
RegistrationError therefore also catch convergence errors. -/
inductive PyError where
  | validation (e : ValidationError)
  | registration
  | convergence
  | typeError
  | valueError
  deriving DecidableEq

instance : DecidableEq (Except ValidationError Unit) := fun a b =>
  match a, b with
  | .ok x, .ok y => .isTrue (by cases x; cases y; rfl)
  | .ok _, .error _ => .isFalse (by simp)
  | .error _, .ok _ => .isFalse (by simp)
  | .error x, .error y => if h : x = y then .isTrue (by rw [h]) else .isFalse (by simp [h])

/-- Config default validation.min_points. -/
def minPoints : ℕ := 100

/-- Config default validation.max_points. -/
def maxPoints : ℕ := 10000000

/-- PointCloudValidator.validate with the default configuration
(min_points=100, max_points=10_000_000, check_nan=check_inf=True).  The
isinstance, ndim and column-count checks are guaranteed by the typed
representation List Pt; NaN and Inf are not representable in ℚ, so the
finiteness check always passes. -/
def PointCloudValidator.validate (points : List Pt) : Except ValidationError Unit :=
  if points.length < minPoints then
    .error (.insufficientPoints points.length minPoints)
  else if points.length > maxPoints then
    .error (.tooManyPoints points.length maxPoints)
  else if npAllZero points then
    .error .allZeros
  else
    .ok ()

/-- PointCloudValidator.validate_pair: validate both clouds, then require each
to have at least 10 points (dead given min_points=100, but kept faithfully). -/
def PointCloudValidator.validate_pair (source target : List Pt) :
    Except ValidationError Unit :=
  match PointCloudValidator.validate source with
  | .error e => .error e
  | .ok _ =>
    match PointCloudValidator.validate target with
    | .error e => .error e
    | .ok _ =>
      if source.length < 10 ∨ target.length < 10 then
        .error (.insufficientPoints (min source.length target.length) 10)
      else
        .ok ()

/-- The top-left 3x3 block transform[:3, :3] of a 4x4 matrix. -/
def rotOf (T : Mat4) : Mat3 := Matrix.of fun i j => T i.castSucc j.castSucc

/-- The translation column transform[:3, 3] of a 4x4 matrix. -/
def translOf (T : Mat4) : Pt := fun i => T i.castSucc 3

/-- Overwrite the top three rows of T with rotation block R and translation t,
leaving row 3 unchanged, as the slice assignments T[:3, :3] = R and
T[:3, 3] = t do. -/
def setTop (T : Mat4) (R : Mat3) (t : Pt) : Mat4 :=
  Matrix.of fun i j =>
    if hi : (i : ℕ) < 3 then
      if hj : (j : ℕ) < 3 then R ⟨i, hi⟩ ⟨j, hj⟩ else t ⟨i, hi⟩
    else T i j

/-- TransformationValidator.validate.  The isinstance, shape and isfinite
checks always pass in this typed embedding (ℚ entries are finite); the three
remaining checks are translated with their exact numpy tolerances: bottom row
via np.allclose with defaults, orthogonality via np.allclose with atol=1e-6,
determinant via np.isclose(det, 1.0, atol=1e-6); the relative tolerance in all
three is the numpy default 1e-5. -/
def TransformationValidator.validate (T : Mat4) : Except ValidationError Unit :=
  if ¬ npBottomClose T then
    .error .badBottomRow
  else if ¬ npAllCloseM (rotOf T * (rotOf T)ᵀ) 1 atol6 npRtol then
    .error .notOrthogonal
  else if ¬ npIsClose (rotOf T).det 1 atol6 npRtol then
    .error .badDeterminant
  else
    .ok ()

/-- Squared Euclidean distance between two points. -/
def sqDist (p q : Pt) : ℚ := ∑ i, (p i - q i) ^ 2

/-- Squared distance from p to its nearest neighbour in target: the semantic
contract of cKDTree(target).query.  The Euclidean distance the source works
with is the real square root of this exact rational (see nnDist below).  The
source never queries an empty target (validation requires nonempty clouds);
the empty case returns 0 as a junk value. -/
def nnSqDist (p : Pt) (target : List Pt) : ℚ :=
  match target with
  | [] => 0
  | q :: qs => qs.foldl (fun acc r => min acc (sqDist p r)) (sqDist p q)

/-- A nearest neighbour of p in target (target[index] for the index returned
by cKDTree.query; ties resolved to the earliest point, any minimiser is a
faithful model of the index's contract). -/
def nnPoint (p : Pt) (target : List Pt) : Pt :=
  match target with
  | [] => fun _ => 0
  | q :: qs => qs.foldl (fun best r => if sqDist p r < sqDist p best then r else best) q

/-- np.mean(points, axis=0): coordinatewise sum divided by the length. -/
def centroid (l : List Pt) : Pt := fun i => (l.map fun p => p i).sum / (l.length : ℚ)

/-- Apply a homogeneous transform to one point:
np.dot(points, T[:3, :3].T) + T[:3, 3] acts on each row as R p + t. -/
def applyTransform (T : Mat4) (p : Pt) : Pt := (rotOf T).mulVec p + translOf T

/-- The cross-covariance sum over paired rows: the value of np.dot(A.T, B)
on two Nx3 arrays with equally many rows.  Entry (i, j) sums
A[k][i] * B[k][j] over the rows k. -/
def covRows (A B : List Pt) : Mat3 :=
  Matrix.of fun i j => ((A.zip B).map fun ab => ab.1 i * ab.2 j).sum

/-- np.dot(A.T, B) on two Nx3 point lists: a 3xN by Mx3 product is defined
only for N = M, and numpy raises ValueError on mismatched row counts;
otherwise the result is covRows A B. -/
def covMat (A B : List Pt) : Except PyError Mat3 :=
  if A.length = B.length then .ok (covRows A B) else .error .valueError

/-- Vt[-1, :] *= -1: negate the last row of a 3x3 matrix. -/
def negLastRow (M : Mat3) : Mat3 := Matrix.updateRow M 2 fun j => -M 2 j

/-- The shared SVD postprocessing of pca_registration, icp_refinement and
calculate_transformation_matrix: R = Vt.T @ U.T, and if det(R) < 0 the last
row of Vt is negated and R recomputed, guaranteeing a right-handed system. -/
def svdRotation (U Vt : Mat3) : Mat3 :=
  let R0 := Vtᵀ * Uᵀ
  if R0.det < 0 then (negLastRow Vt)ᵀ * Uᵀ else R0

/-- The centred cross-covariance matrix pca_registration feeds to
np.linalg.svd, defined when source and target have equally many points (the
case where np.dot of the centred arrays succeeds). -/
def pcaCov (source target : List Pt) : Mat3 :=
  covRows (source.map fun p => p - centroid source) (target.map fun p => p - centroid target)

/-- RegistrationAlgorithms.pca_registration, parameterised by an oracle svd
for np.linalg.svd returning (U, Vt) (the singular values are discarded by the
source).  Everything inside the try block that raises, including validation
failures and the ValueError np.dot raises when the centred arrays have
mismatched row counts (the pair validator imposes no equal-length
requirement), is re-raised as RegistrationError by the except clause. -/
def RegistrationAlgorithms.pca_registration (svd : Mat3 → Mat3 × Mat3)
    (source target : List Pt) : Except PyError Mat4 :=
  match PointCloudValidator.validate_pair source target with
  | .error _ => .error .registration
  | .ok _ =>
    match covMat (source.map fun p => p - centroid source)
        (target.map fun p => p - centroid target) with
    | .error _ => .error .registration
    | .ok cov =>
      let R := svdRotation (svd cov).1 (svd cov).2
      let t := centroid target - R.mulVec (centroid source)
      let T := setTop 1 R t
      match TransformationValidator.validate T with
      | .error _ => .error .registration
      | .ok _ => .ok T

/-- The Euclidean distance from p to its nearest neighbour in target, the
value cKDTree.query actually reports: the real square root of the exact
rational squared distance. -/
noncomputable def nnDist (p : Pt) (target : List Pt) : ℝ :=
  Real.sqrt ((nnSqDist p target : ℚ) : ℝ)

/-- np.mean of a real list: sum divided by length. -/
noncomputable def listMean (l : List ℝ) : ℝ := l.sum / (l.length : ℝ)

/-- np.max of a real list (np.max raises on an empty list; callers guard, the
empty case here returns the junk value 0). -/
noncomputable def listMax (l : List ℝ) : ℝ :=
  match l with
  | [] => 0
  | a :: as => as.foldl max a

/-- np.median: sort, take the middle element for odd length, the average of
the two middle elements for even length. -/
noncomputable def listMedian (l : List ℝ) : ℝ :=
  let s := l.mergeSort fun a b => decide (a ≤ b)
  if l.length % 2 = 1 then s.getD (l.length / 2) 0
  else (s.getD (l.length / 2 - 1) 0 + s.getD (l.length / 2) 0) / 2

/-- The metrics dictionary returned by MetricsCalculator.compute_metrics
(the Transformation entry, an echo of the input, is omitted). -/
structure MetricsR where
  rmse : ℝ
  maxError : ℝ
  meanError : ℝ
  medianError : ℝ

/-- MetricsCalculator.compute_metrics: transform the source, query the
spatial index over the target for nearest-neighbour distances, and report
RMSE = sqrt(mean(distances^2)), max, mean and median of the distances.
np.max raises ValueError on an empty distance list (the only way the
arithmetic can fail on finite rational inputs), modelled by the error
branch. -/
noncomputable def MetricsCalculator.compute_metrics (source target : List Pt)
    (T : Mat4) : Except PyError MetricsR :=
  let ts := source.map (applyTransform T)
  let ds := ts.map fun p => nnDist p target
  if ds.length = 0 then .error .valueError
  else
    .ok { rmse := Real.sqrt (listMean (ds.map fun d => d ^ 2))
          maxError := listMax ds
          meanError := listMean ds
          medianError := listMedian ds }

/-- One incremental ICP update (registration.py lines 140-158): recompute
correspondences from the transformed source ts, build the centred
cross-covariance, get (U, Vt) from the svd oracle, correct a reflection by
negating the last row of Vt, and left-compose the increment into the
cumulative transform (only the top three rows of the 4x4 matrix are
assigned). -/
def icpUpdate (svd : Mat3 → Mat3 × Mat3) (target : List Pt) (T : Mat4)
    (ts : List Pt) : Mat4 :=
  let corresponding := ts.map fun p => nnPoint p target
  -- both centred lists are maps over ts, so their row counts agree and
  -- np.dot cannot fail here; covRows is its value on equal row counts
  let cov := covRows (ts.map fun p => p - centroid ts)
    (corresponding.map fun p => p - centroid corresponding)
  let R := svdRotation (svd cov).1 (svd cov).2
  let t := centroid corresponding - R.mulVec (centroid ts)
  setTop T (R * rotOf T) (R.mulVec (translOf T) + t)

/-- The mean nearest-neighbour residual np.mean(distances) of the transformed
source ts against the target. -/
noncomputable def icpError (target ts : List Pt) : ℝ :=
  listMean (ts.map fun p => nnDist p target)

/-- The convergence test np.abs(error - prev_error) < tolerance.  The source
initialises prev_error to np.inf, for which the test is False against any
finite error and tolerance; the infinite initial value is modelled by none. -/
def convergedStep (prevError : Option ℝ) (e tol : ℝ) : Prop :=
  match prevError with
  | none => False
  | some p => |e - p| < tol

noncomputable instance (prevError : Option ℝ) (e tol : ℝ) :
    Decidable (convergedStep prevError e tol) := by
  unfold convergedStep; cases prevError <;> infer_instance

/-- The iteration loop of icp_refinement: fuel counts the remaining loop
iterations, iteration the 0-based index of the current one.  On each pass the
source is transformed by the cumulative transform, the mean nearest-neighbour
residual is compared against the previous one, and either the loop returns
(transform, iteration + 1, error) or updates the transform and continues;
exhausting the budget raises ConvergenceError. -/
noncomputable def icpGo (svd : Mat3 → Mat3 × Mat3) (source target : List Pt)
    (tol : ℝ) : ℕ → ℕ → Mat4 → Option ℝ → Except PyError (Mat4 × ℕ × ℝ)
  | 0, _, _, _ => .error .convergence
  | fuel + 1, iteration, T, prevError =>
    let ts := source.map (applyTransform T)
    let e := icpError target ts
    if convergedStep prevError e tol then .ok (T, iteration + 1, e)
    else icpGo svd source target tol fuel (iteration + 1) (icpUpdate svd target T ts) (some e)

/-- RegistrationAlgorithms.icp_refinement: validate the pair and the initial
transform (failures are re-raised as RegistrationError by the except clause),
then run the loop from the initial transform with prev_error = inf.
max_iterations and tolerance default to 50 and 1e-7 in the source. -/
noncomputable def RegistrationAlgorithms.icp_refinement (svd : Mat3 → Mat3 × Mat3)
    (source target : List Pt) (initialTransform : Mat4)
    (maxIterations : ℕ) (tol : ℝ) : Except PyError (Mat4 × ℕ × ℝ) :=
  match PointCloudValidator.validate_pair source target with
  | .error _ => .error .registration
  | .ok _ =>
    match TransformationValidator.validate initialTransform with
    | .error _ => .error .registration
    | .ok _ => icpGo svd source target tol maxIterations 0 initialTransform none

/-- The straight-line transform sequence of the ICP loop: the cumulative
transform at the start of iteration n, had no earlier iteration converged. -/
noncomputable def icpT (svd : Mat3 → Mat3 × Mat3) (source target : List Pt)
    (T0 : Mat4) : ℕ → Mat4
  | 0 => T0
  | n + 1 =>
    let T := icpT svd source target T0 n
    icpUpdate svd target T (source.map (applyTransform T))

/-- The mean nearest-neighbour residual the loop computes at iteration n. -/
noncomputable def icpE (svd : Mat3 → Mat3 × Mat3) (source target : List Pt)
    (T0 : Mat4) (n : ℕ) : ℝ :=
  icpError target (source.map (applyTransform (icpT svd source target T0 n)))

/-- The prev_error value at the start of iteration n: np.inf (none) at
iteration 0, the previous mean residual afterwards. -/
noncomputable def icpPrev (svd : Mat3 → Mat3 × Mat3) (source target : List Pt)
    (T0 : Mat4) : ℕ → Option ℝ
  | 0 => none
  | n + 1 => some (icpE svd source target T0 n)

/-- Iteration n satisfies the convergence test: it has a previous iteration
and the absolute change in mean residual is strictly below the tolerance. -/
def icpConvergedAt (svd : Mat3 → Mat3 × Mat3) (source target : List Pt)
    (T0 : Mat4) (tol : ℝ) (n : ℕ) : Prop :=
  0 < n ∧ |icpE svd source target T0 n - icpE svd source target T0 (n - 1)| < tol

/-- The result record produced once per strategy attempt
(icp_fitter.FitResult).  is_success is computed from the same fields at
construction; it is exposed here as the derived predicate isSuccess. -/
structure FitResult where
  transformation : Mat4
  inlierRmse : ℝ
  rmseThreshold : ℝ
  maxError : ℝ

/-- self.is_success = self.inlier_rmse < self.rmse_threshold: strict
comparison. -/
def FitResult.isSuccess (r : FitResult) : Prop := r.inlierRmse < r.rmseThreshold

noncomputable instance (r : FitResult) : Decidable r.isSuccess := by
  unfold FitResult.isSuccess; infer_instance

/-- FgrFitter.fit as constructed by PointCloudAPI (FgrFitter() with
icp_fitter=None): the external FGR computation is a parameter; when it
completes, the fitter returns FitResult(transformation, 0.0, threshold, 0.0)
because FGR provides no RMSE; when it raises, the except clause re-raises
RegistrationError. -/
def FgrFitter.fit (fgrExternal : Except PyError Mat4) (rmseThreshold : ℝ) :
    Except PyError FitResult :=
  match fgrExternal with
  | .error _ => .error .registration
  | .ok T => .ok { transformation := T, inlierRmse := 0, rmseThreshold := rmseThreshold, maxError := 0 }

/-- PointCloudAPI.register_with_fallback (app.py lines 84-187).  The three
collaborator-backed stage computations are parameters: customOutcome is the
outcome of the PCA + ICP + metrics block (lines 106-124; note the source
passes the whole icp_refinement result tuple to compute_metrics there, so a
completed stage also may surface as a TypeError, which the handler below does
not catch, faithful to except RegistrationError), fgrExternal the outcome of
the open3d FGR call inside self.fgr_fitter.fit, and icpOutcome the outcome of
self.icp_fitter.fit.  The identity fallthrough recomputes metrics with the
embedded MetricsCalculator.  Any exception in the second try block is
converted to RegistrationError by except Exception. -/
noncomputable def PointCloudAPI.register_with_fallback
    (customOutcome : Except PyError (Mat4 × ℝ × ℝ))
    (fgrExternal : Except PyError Mat4)
    (icpOutcome : Except PyError FitResult)
    (source target : List Pt) (rmseThreshold : ℝ) :
    Except PyError (Mat4 × ℝ × ℝ × String) :=
  let method2 : Except PyError (Mat4 × ℝ × ℝ × String) :=
    match FgrFitter.fit fgrExternal rmseThreshold with
    | .error _ => .error .registration
    | .ok fgrResult =>
      if fgrResult.isSuccess then
        match MetricsCalculator.compute_metrics source target fgrResult.transformation with
        | .error _ => .error .registration
        | .ok m => .ok (fgrResult.transformation, fgrResult.inlierRmse, m.maxError, "FGR")
      else
        match icpOutcome with
        | .error _ => .error .registration
        | .ok icpResult =>
          if icpResult.isSuccess then
            match MetricsCalculator.compute_metrics source target icpResult.transformation with
            | .error _ => .error .registration
            | .ok m => .ok (icpResult.transformation, icpResult.inlierRmse, m.maxError, "ICP")
          else
            match MetricsCalculator.compute_metrics source target 1 with
            | .error _ => .error .registration
            | .ok m => .ok (1, m.rmse, m.maxError, "Failed (Identity)")
  match customOutcome with
  | .ok (T, rmseCustom, maxErrorCustom) =>
    if rmseCustom ≤ rmseThreshold then .ok (T, rmseCustom, maxErrorCustom, "Custom ICP")
    else method2
  | .error e =>
    if e = .registration ∨ e = .convergence then method2 else .error e

/-- np.linalg.inv on a 4x4 rational matrix: raises LinAlgError on a singular
matrix, otherwise returns the inverse det⁻¹ • adjugate. -/
def linalgInv (T : Mat4) : Except PyError Mat4 :=
  if T.det = 0 then .error .valueError else .ok (T.det⁻¹ • T.adjugate)

/-- The bidirectional selection of PointCloudAPI.process_point_clouds (app.py
lines 228-262): the forward result always completes (otherwise the request
fails); the reverse register_with_fallback outcome is a parameter.  The
reverse candidate replaces the forward one only when its RMSE is strictly
lower, in which case its transform is inverted; any exception in the reverse
branch (including a failed inversion) is caught and the forward result
kept. -/
noncomputable def PointCloudAPI.selectBest
    (enableBidirectional : Bool)
    (forward : Mat4 × ℝ × ℝ × String)
    (reverseOutcome : Except PyError (Mat4 × ℝ × ℝ × String)) :
    Mat4 × ℝ × ℝ × String :=
  let bestForward := (forward.1, forward.2.1, forward.2.2.1, "Forward " ++ forward.2.2.2)
  if enableBidirectional then
    match reverseOutcome with
    | .error _ => bestForward
    | .ok (Tr, rmseRev, maxErrorRev, methodRev) =>
      if rmseRev < forward.2.1 then
        match linalgInv Tr with
        | .error _ => bestForward
        | .ok Ti => (Ti, rmseRev, maxErrorRev, "Reverse " ++ methodRev)
      else bestForward
  else bestForward

/-- The FitResult that process_point_clouds builds from the selected best
candidate (app.py lines 270-275) and delivers to the caller. -/
def finalFitResult (best : Mat4 × ℝ × ℝ × String) (rmseThreshold : ℝ) : FitResult :=
  { transformation := best.1, inlierRmse := best.2.1,
    rmseThreshold := rmseThreshold, maxError := best.2.2.1 }

/-- A 100-point cloud of all-ones points, concrete witness data (points need
not be distinct for validation). -/
def cloudA : List Pt := List.replicate 100 fun _ => 1

/-- A 99-point cloud of all-ones points. -/
def cloud99 : List Pt := List.replicate 99 fun _ => 1

/-- A finite 4x4 matrix equal to the identity except that its bottom-left
entry is 1e-9: its bottom row is not exactly [0, 0, 0, 1], but every entry is
within the np.allclose default tolerance of it. -/
def nearlyRigid : Mat4 :=
  Matrix.of fun i j =>
    if (i : ℕ) = 3 ∧ (j : ℕ) = 0 then 1 / 1000000000 else (1 : Mat4) i j

theorem npAtol_nonneg : 0 ≤ npAtol := by norm_num [npAtol]

theorem npRtol_nonneg : 0 ≤ npRtol := by norm_num [npRtol]

theorem atol6_nonneg : 0 ≤ atol6 := by norm_num [atol6]

theorem npIsClose_of_eq {a b : ℚ} (h : a = b) {atol rtol : ℚ} (h1 : 0 ≤ atol)
    (h2 : 0 ≤ rtol) : npIsClose a b atol rtol := by
  unfold npIsClose
  rw [h, sub_self, abs_zero]
  exact add_nonneg h1 (mul_nonneg h2 (abs_nonneg b))

/-- Shared evaluation lemma: a transform with an exact [0,0,0,1] bottom row,
an exactly orthogonal rotation block and determinant exactly 1 passes the
transform validator. -/
theorem validate_ok_of_exact (T : Mat4) (hrow : ∀ j, T 3 j = bottomRow j)
    (horth : rotOf T * (rotOf T)ᵀ = 1) (hdet : (rotOf T).det = 1) :
    TransformationValidator.validate T = .ok () := by
  unfold TransformationValidator.validate
  rw [if_neg (not_not_intro (show npBottomClose T from
      fun j => npIsClose_of_eq (hrow j) npAtol_nonneg npRtol_nonneg)),
    if_neg (not_not_intro (show npAllCloseM (rotOf T * (rotOf T)ᵀ) 1 atol6 npRtol from
      fun i j => npIsClose_of_eq (by rw [horth]) atol6_nonneg npRtol_nonneg)),
    if_neg (not_not_intro (npIsClose_of_eq hdet atol6_nonneg npRtol_nonneg))]

/-- Claim C4: a FitResult's success flag holds exactly when its inlier RMSE is
strictly below the configured threshold; at exact equality the flag is
false. -/
theorem fit_result_success_iff (t : Mat4) (r thr m : ℝ) :
    ((FitResult.mk t r thr m).isSuccess ↔ r < thr)
    ∧ ¬ (FitResult.mk t thr thr m).isSuccess :=
  ⟨Iff.rfl, lt_irrefl thr⟩

theorem fit_result_success_iff_witness :
    ((FitResult.mk 1 0 1 0).isSuccess ↔ (0 : ℝ) < 1)
    ∧ ¬ (FitResult.mk 1 1 1 0).isSuccess :=
  ⟨(fit_result_success_iff 1 0 1 0).1, (fit_result_success_iff 1 1 1 0).2⟩

/-- Claim C9: with no ICP fitter configured, a successful FGR step makes
FgrFitter.fit return a FitResult with inlier_rmse = 0 and max_error = 0, so
its success flag holds for every positive threshold, whatever the transform
is. -/
theorem fgr_fit_without_icp_zero_rmse (T : Mat4) (thr : ℝ) :
    FgrFitter.fit (.ok T) thr = .ok (FitResult.mk T 0 thr 0)
    ∧ (0 < thr → (FitResult.mk T 0 thr 0).isSuccess) :=
  ⟨rfl, fun h => h⟩

theorem fgr_fit_without_icp_zero_rmse_witness :
    (0 : ℝ) < 1
    ∧ FgrFitter.fit (.ok 1) 1 = .ok (FitResult.mk 1 0 1 0)
    ∧ (FitResult.mk 1 0 1 0).isSuccess :=
  ⟨zero_lt_one, (fgr_fit_without_icp_zero_rmse 1 1).1,
   (fgr_fit_without_icp_zero_rmse 1 1).2 zero_lt_one⟩

/-- Claim C6: with the default minimum of 100 points, every 99-point cloud is
rejected with the actual count 99 and the required count 100, and every
100-point cloud that is not near-zero (the only other check that can fail on
finite rational data) is accepted. -/
theorem point_cloud_validator_boundary (points : List Pt) :
    (points.length = 99 →
      PointCloudValidator.validate points = .error (.insufficientPoints 99 100))
    ∧ (points.length = 100 → ¬ npAllZero points →
      PointCloudValidator.validate points = .ok ()) := by
  constructor
  · intro h
    unfold PointCloudValidator.validate
    rw [h]
    norm_num [minPoints]
  · intro h hz
    unfold PointCloudValidator.validate
    rw [h]
    rw [if_neg (by norm_num [minPoints]), if_neg (by norm_num [maxPoints]), if_neg hz]

theorem cloudA_not_allZero : ¬ npAllZero cloudA := by
  intro h
  have h1 := h (fun _ => 1) (by simp [cloudA]) 0
  norm_num [npAtol] at h1

theorem point_cloud_validator_boundary_witness :
    (cloud99.length = 99
      ∧ PointCloudValidator.validate cloud99 = .error (.insufficientPoints 99 100))
    ∧ (cloudA.length = 100 ∧ ¬ npAllZero cloudA
      ∧ PointCloudValidator.validate cloudA = .ok ()) :=
  ⟨⟨by simp [cloud99], (point_cloud_validator_boundary cloud99).1 (by simp [cloud99])⟩,
   by simp [cloudA], cloudA_not_allZero,
   (point_cloud_validator_boundary cloudA).2 (by simp [cloudA]) cloudA_not_allZero⟩

theorem nearlyRigid_rot : rotOf nearlyRigid = 1 := by
  ext i j
  have hi : ¬ (((i.castSucc : Fin 4) : ℕ) = 3 ∧ ((j.castSucc : Fin 4) : ℕ) = 0) := by
    rintro ⟨h3, -⟩
    have h4 := i.isLt
    rw [Fin.coe_castSucc] at h3
    omega
  simp only [rotOf, nearlyRigid, Matrix.of_apply]
  rw [if_neg hi]
  simp [Matrix.one_apply, Fin.castSucc_inj]

theorem nearlyRigid_row3 (j : Fin 4) :
    nearlyRigid 3 j = if (j : ℕ) = 0 then 1 / 1000000000 else bottomRow j := by
  rcases j with ⟨jv, hj⟩
  interval_cases jv <;> rfl

theorem nearlyRigid_bottom_close : npBottomClose nearlyRigid := by
  intro j
  unfold npIsClose
  rw [nearlyRigid_row3]
  by_cases h : (j : ℕ) = 0
  · rw [if_pos h]
    have hb : bottomRow j = 0 := by
      rcases j with ⟨jv, hj⟩
      simp only [Fin.val_mk] at h
      subst h
      rfl
    rw [hb, abs_zero, mul_zero, add_zero, sub_zero, abs_of_nonneg (by norm_num)]
    norm_num [npAtol]
  · rw [if_neg h, sub_self, abs_zero]
    exact add_nonneg npAtol_nonneg (mul_nonneg npRtol_nonneg (abs_nonneg _))

/-- Claim C8 counterexample: the transform validator accepts nearlyRigid,
whose bottom row is not exactly [0, 0, 0, 1] (its first entry is 1e-9): the
bottom-row check uses np.allclose with default tolerances, not exact
equality. -/
theorem transformation_validator_exact_bottom_row_counterexample :
    TransformationValidator.validate nearlyRigid = .ok ()
    ∧ ¬ (∀ j, nearlyRigid 3 j = bottomRow j) := by
  constructor
  · unfold TransformationValidator.validate
    rw [if_neg (not_not_intro nearlyRigid_bottom_close),
      if_neg (not_not_intro (show npAllCloseM (rotOf nearlyRigid * (rotOf nearlyRigid)ᵀ) 1 atol6 npRtol from
        fun i j => npIsClose_of_eq
          (by rw [nearlyRigid_rot, Matrix.transpose_one, one_mul]) atol6_nonneg npRtol_nonneg)),
      if_neg (not_not_intro (npIsClose_of_eq
        (by rw [nearlyRigid_rot, Matrix.det_one]) atol6_nonneg npRtol_nonneg))]
  · intro hall
    have h := hall 0
    rw [nearlyRigid_row3 0, if_pos (show (((0 : Fin 4) : ℕ) = 0) from rfl),
      show bottomRow 0 = 0 from rfl] at h
    norm_num at h

/-- Claim C8 as amended: the transform validator rejects, with the bottom-row
error, every finite matrix whose bottom row is outside the np.allclose
default tolerance of [0, 0, 0, 1]; matrices merely within tolerance can pass
(see the counterexample), so exactness is sufficient but not necessary. -/
theorem transformation_validator_bottom_row_within_tolerance (T : Mat4)
    (h : ¬ npBottomClose T) :
    TransformationValidator.validate T = .error .badBottomRow := by
  unfold TransformationValidator.validate
  rw [if_pos h]

/-- A matrix whose bottom row starts with 1, far outside tolerance. -/
def farBottom : Mat4 :=
  Matrix.of fun i j =>
    if (i : ℕ) = 3 ∧ (j : ℕ) = 0 then 1 else (1 : Mat4) i j

theorem farBottom_not_bottom_close : ¬ npBottomClose farBottom := by
  intro h
  have h0 := h 0
  unfold npIsClose at h0
  rw [show farBottom 3 0 = 1 from rfl, show bottomRow 0 = 0 from rfl,
    sub_zero, abs_zero, mul_zero, add_zero, abs_one] at h0
  norm_num [npAtol] at h0

theorem transformation_validator_bottom_row_within_tolerance_witness :
    ¬ npBottomClose farBottom
    ∧ TransformationValidator.validate farBottom = .error .badBottomRow :=
  ⟨farBottom_not_bottom_close,
   transformation_validator_bottom_row_within_tolerance farBottom farBottom_not_bottom_close⟩

/-- Claim C2: with bidirectional search enabled and a completed reverse run,
the reverse result replaces the forward one exactly when its RMSE is strictly
lower (the forward result wins ties), and then the transform placed in the
result, and hence in the delivered FitResult, is the matrix inverse of the
reverse transform. -/
theorem bidirectional_selection_spec (Tf : Mat4) (rf mf : ℝ) (methodF : String)
    (Tr : Mat4) (rr mr : ℝ) (methodR : String) (thr : ℝ) :
    (rr < rf → Tr.det ≠ 0 →
      PointCloudAPI.selectBest true (Tf, rf, mf, methodF) (.ok (Tr, rr, mr, methodR))
          = (Tr.det⁻¹ • Tr.adjugate, rr, mr, "Reverse " ++ methodR)
        ∧ (Tr.det⁻¹ • Tr.adjugate) * Tr = 1
        ∧ Tr * (Tr.det⁻¹ • Tr.adjugate) = 1
        ∧ (finalFitResult (PointCloudAPI.selectBest true (Tf, rf, mf, methodF)
            (.ok (Tr, rr, mr, methodR))) thr).transformation = Tr.det⁻¹ • Tr.adjugate)
    ∧ (¬ rr < rf →
      PointCloudAPI.selectBest true (Tf, rf, mf, methodF) (.ok (Tr, rr, mr, methodR))
        = (Tf, rf, mf, "Forward " ++ methodF)) := by
  constructor
  · intro hlt hdet
    have hsel : PointCloudAPI.selectBest true (Tf, rf, mf, methodF) (.ok (Tr, rr, mr, methodR))
        = (Tr.det⁻¹ • Tr.adjugate, rr, mr, "Reverse " ++ methodR) := by
      simp [PointCloudAPI.selectBest, linalgInv, hlt, hdet]
    have hmul : (Tr.det⁻¹ • Tr.adjugate) * Tr = 1 := by
      rw [smul_mul_assoc, Matrix.adjugate_mul, smul_smul, inv_mul_cancel₀ hdet, one_smul]
    have hmul2 : Tr * (Tr.det⁻¹ • Tr.adjugate) = 1 := by
      rw [mul_smul_comm, Matrix.mul_adjugate, smul_smul, inv_mul_cancel₀ hdet, one_smul]
    exact ⟨hsel, hmul, hmul2, by rw [hsel]; rfl⟩
  · intro hge
    simp [PointCloudAPI.selectBest, hge]

theorem bidirectional_selection_spec_witness :
    ((0 : ℝ) < 1 ∧ (1 : Mat4).det ≠ 0
      ∧ (PointCloudAPI.selectBest true (1, 1, 0, "Custom ICP") (.ok (1, 0, 0, "FGR"))
          = ((1 : Mat4).det⁻¹ • (1 : Mat4).adjugate, 0, 0, "Reverse " ++ "FGR")
        ∧ ((1 : Mat4).det⁻¹ • (1 : Mat4).adjugate) * 1 = 1
        ∧ (1 : Mat4) * ((1 : Mat4).det⁻¹ • (1 : Mat4).adjugate) = 1
        ∧ (finalFitResult (PointCloudAPI.selectBest true (1, 1, 0, "Custom ICP")
            (.ok (1, 0, 0, "FGR"))) 1).transformation
              = (1 : Mat4).det⁻¹ • (1 : Mat4).adjugate))
    ∧ (¬ (1 : ℝ) < 1
      ∧ PointCloudAPI.selectBest true (1, 1, 0, "Custom ICP") (.ok (1, 1, 0, "FGR"))
          = (1, 1, 0, "Forward " ++ "Custom ICP")) :=
  ⟨⟨zero_lt_one, by simp,
    (bidirectional_selection_spec 1 1 0 "Custom ICP" 1 0 0 "FGR" 1).1 zero_lt_one (by simp)⟩,
   ⟨lt_irrefl 1,
    (bidirectional_selection_spec 1 1 0 "Custom ICP" 1 1 0 "FGR" 1).2 (lt_irrefl 1)⟩⟩

/-- compute_metrics completes on a nonempty source (the distance list is then
nonempty), and its RMSE, a real square root, is nonnegative. -/
theorem compute_metrics_ok (source target : List Pt) (T : Mat4) (h : source ≠ []) :
    ∃ m, MetricsCalculator.compute_metrics source target T = .ok m ∧ 0 ≤ m.rmse := by
  simp only [MetricsCalculator.compute_metrics]
  rw [if_neg (by simpa using h)]
  exact ⟨_, rfl, Real.sqrt_nonneg _⟩

/-- Claim C5: when the custom PCA + ICP stage completes with RMSE above the
threshold, the FGR stage completes without success, and the ICP stage
completes without success, register_with_fallback returns the identity
transform with freshly computed identity metrics, and the FitResult the API
builds from it has success = false.  The success flag is provably false
because a failed FGR stage (whose embedded RMSE is the constant 0.0) forces
the threshold to be nonpositive while the recomputed identity RMSE is
nonnegative. -/
theorem register_with_fallback_all_fail_identity
    (Tc : Mat4) (rc mc : ℝ) (Tf : Mat4) (icpResult : FitResult)
    (source target : List Pt) (thr : ℝ)
    (hsource : source ≠ [])
    (hcustom : ¬ rc ≤ thr)
    (hfgr : ¬ (FitResult.mk Tf 0 thr 0).isSuccess)
    (hicp : ¬ icpResult.isSuccess) :
    ∃ m, MetricsCalculator.compute_metrics source target 1 = .ok m
      ∧ PointCloudAPI.register_with_fallback (.ok (Tc, rc, mc)) (.ok Tf) (.ok icpResult)
          source target thr = .ok (1, m.rmse, m.maxError, "Failed (Identity)")
      ∧ ¬ (FitResult.mk 1 m.rmse thr m.maxError).isSuccess := by
  obtain ⟨m, hm, hrm⟩ := compute_metrics_ok source target 1 hsource
  refine ⟨m, hm, ?_, ?_⟩
  · simp only [PointCloudAPI.register_with_fallback, FgrFitter.fit, hm]
    rw [if_neg hcustom, if_neg hfgr, if_neg hicp]
  · have h0 : ¬ (0 : ℝ) < thr := hfgr
    exact not_lt.mpr (le_trans (not_lt.mp h0) hrm)

theorem register_with_fallback_all_fail_identity_witness :
    ([fun _ => 1] : List Pt) ≠ []
    ∧ ¬ (1 : ℝ) ≤ 0
    ∧ ¬ (FitResult.mk 1 0 0 0).isSuccess
    ∧ ¬ (FitResult.mk 1 1 0 0).isSuccess
    ∧ ∃ m, MetricsCalculator.compute_metrics [fun _ => 1] [fun _ => 1] 1 = .ok m
      ∧ PointCloudAPI.register_with_fallback (.ok (1, 1, 0)) (.ok 1)
          (.ok (FitResult.mk 1 1 0 0)) [fun _ => 1] [fun _ => 1] 0
            = .ok (1, m.rmse, m.maxError, "Failed (Identity)")
      ∧ ¬ (FitResult.mk 1 m.rmse 0 m.maxError).isSuccess :=
  ⟨by simp, by norm_num, lt_irrefl 0, by norm_num [FitResult.isSuccess],
   register_with_fallback_all_fail_identity 1 1 0 1 (FitResult.mk 1 1 0 0)
     [fun _ => 1] [fun _ => 1] 0 (by simp) (by norm_num) (lt_irrefl 0)
     (by norm_num [FitResult.isSuccess])⟩

theorem castSucc_ne_three (i : Fin 3) : (i.castSucc : Fin 4) ≠ 3 :=
  Fin.ne_of_val_ne (by
    rw [Fin.coe_castSucc, show ((3 : Fin 4) : ℕ) = 3 from rfl]
    have h4 := i.isLt
    omega)

theorem rotOf_one : rotOf (1 : Mat4) = 1 := by
  ext i j
  simp [rotOf, Matrix.one_apply, Fin.castSucc_inj]

theorem translOf_one : translOf (1 : Mat4) = 0 := by
  funext i
  simp [translOf, Matrix.one_apply, castSucc_ne_three i]

theorem applyTransform_one (p : Pt) : applyTransform 1 p = p := by
  unfold applyTransform
  rw [rotOf_one, Matrix.one_mulVec, translOf_one, add_zero]

theorem sqDist_self (p : Pt) : sqDist p p = 0 := by
  unfold sqDist
  simp

theorem sqDist_nonneg (p q : Pt) : 0 ≤ sqDist p q := by
  unfold sqDist
  exact Finset.sum_nonneg fun i _ => sq_nonneg _

theorem foldl_min_le_init (l : List ℚ) (a : ℚ) : l.foldl min a ≤ a := by
  induction l generalizing a with
  | nil => exact le_refl a
  | cons x xs ih => exact le_trans (ih (min a x)) (min_le_left a x)

theorem foldl_min_le_mem {l : List ℚ} {x : ℚ} (hx : x ∈ l) (a : ℚ) : l.foldl min a ≤ x := by
  induction l generalizing a with
  | nil => cases hx
  | cons y ys ih =>
    rcases List.mem_cons.mp hx with h | h
    · subst h
      exact le_trans (foldl_min_le_init ys (min a x)) (min_le_right a x)
    · exact ih h (min a y)

theorem le_foldl_min {l : List ℚ} {a c : ℚ} (ha : c ≤ a) (hl : ∀ x ∈ l, c ≤ x) :
    c ≤ l.foldl min a := by
  induction l generalizing a with
  | nil => exact ha
  | cons y ys ih =>
    exact ih (le_min ha (hl y (List.mem_cons_self y ys)))
      fun x hx => hl x (List.mem_cons_of_mem y hx)

theorem nnSqDist_cons (p q : Pt) (qs : List Pt) :
    nnSqDist p (q :: qs) = (qs.map (sqDist p)).foldl min (sqDist p q) := by
  unfold nnSqDist
  rw [List.foldl_map]

theorem nnSqDist_nonneg (p : Pt) (target : List Pt) : 0 ≤ nnSqDist p target := by
  cases target with
  | nil => exact le_refl 0
  | cons q qs =>
    rw [nnSqDist_cons]
    refine le_foldl_min (sqDist_nonneg p q) ?_
    intro x hx
    obtain ⟨r, hr, rfl⟩ := List.mem_map.mp hx
    exact sqDist_nonneg p r

theorem nnSqDist_le_of_mem (p : Pt) {q : Pt} {target : List Pt} (h : q ∈ target) :
    nnSqDist p target ≤ sqDist p q := by
  cases target with
  | nil => cases h
  | cons y ys =>
    rw [nnSqDist_cons]
    rcases List.mem_cons.mp h with h1 | h1
    · rw [h1]
      exact foldl_min_le_init _ _
    · exact foldl_min_le_mem (List.mem_map_of_mem _ h1) _

theorem nnSqDist_self_of_mem {p : Pt} {target : List Pt} (h : p ∈ target) :
    nnSqDist p target = 0 :=
  le_antisymm (by simpa [sqDist_self] using nnSqDist_le_of_mem p h) (nnSqDist_nonneg p target)

theorem nnDist_self_of_mem {p : Pt} {target : List Pt} (h : p ∈ target) :
    nnDist p target = 0 := by
  unfold nnDist
  rw [nnSqDist_self_of_mem h]
  simp

theorem listMean_eq_zero {l : List ℝ} (h : ∀ x ∈ l, x = 0) : listMean l = 0 := by
  unfold listMean
  rw [List.sum_eq_zero h, zero_div]

theorem foldl_max_zero {l : List ℝ} (h : ∀ x ∈ l, x = 0) {a : ℝ} (ha : a = 0) :
    l.foldl max a = 0 := by
  induction l generalizing a with
  | nil => exact ha
  | cons y ys ih =>
    have hy : y = 0 := h y (List.mem_cons_self y ys)
    exact ih (fun x hx => h x (List.mem_cons_of_mem y hx)) (by rw [ha, hy, max_self])

theorem listMax_eq_zero {l : List ℝ} (h : ∀ x ∈ l, x = 0) : listMax l = 0 := by
  cases l with
  | nil => rfl
  | cons a as =>
    show as.foldl max a = 0
    exact foldl_max_zero (fun x hx => h x (List.mem_cons_of_mem a hx))
      (h a (List.mem_cons_self a as))

theorem getD_eq_zero {l : List ℝ} (h : ∀ x ∈ l, x = 0) (i : ℕ) : l.getD i 0 = 0 := by
  rcases Nat.lt_or_ge i l.length with hi | hi
  · rw [List.getD_eq_getElem l 0 hi]
    exact h _ (l.getElem_mem hi)
  · rw [List.getD_eq_default l 0 hi]

theorem listMedian_eq_zero {l : List ℝ} (h : ∀ x ∈ l, x = 0) : listMedian l = 0 := by
  have hs : ∀ x ∈ l.mergeSort fun a b => decide (a ≤ b), x = 0 := fun x hx =>
    h x ((List.mergeSort_perm l _).mem_iff.mp hx)
  simp only [listMedian]
  split
  · exact getD_eq_zero hs _
  · rw [getD_eq_zero hs, getD_eq_zero hs]
    norm_num

/-- Claim C7: compute_metrics of any nonempty point set against itself under
the identity transform reports RMSE, max, mean and median all equal to zero:
each transformed point finds itself at nearest-neighbour distance zero. -/
theorem compute_metrics_identity_self (A : List Pt) (h : A ≠ []) :
    MetricsCalculator.compute_metrics A A 1 = .ok ⟨0, 0, 0, 0⟩ := by
  have hmap : A.map (applyTransform 1) = A := by
    have hc : ∀ a ∈ A, applyTransform 1 a = id a := fun a _ => applyTransform_one a
    rw [List.map_congr_left hc, List.map_id]
  have hds : ∀ d ∈ A.map fun p => nnDist p A, d = 0 := by
    intro d hd
    obtain ⟨a, ha, rfl⟩ := List.mem_map.mp hd
    exact nnDist_self_of_mem ha
  have hsq : ∀ x ∈ (A.map fun p => nnDist p A).map fun d => d ^ 2, x = 0 := by
    intro x hx
    obtain ⟨d, hd, rfl⟩ := List.mem_map.mp hx
    rw [hds d hd]
    norm_num
  simp only [MetricsCalculator.compute_metrics, hmap]
  rw [if_neg (by simpa using h)]
  rw [listMean_eq_zero hsq, listMean_eq_zero hds, listMax_eq_zero hds,
    listMedian_eq_zero hds, Real.sqrt_zero]

theorem compute_metrics_identity_self_witness :
    ([fun _ => 1] : List Pt) ≠ []
    ∧ MetricsCalculator.compute_metrics [fun _ => 1] [fun _ => 1] 1 = .ok ⟨0, 0, 0, 0⟩ :=
  ⟨by simp, compute_metrics_identity_self [fun _ => 1] (by simp)⟩

/-- The diagonal matrix diag(1, 1, -1): negating the last row of Vt is left
multiplication by it. -/
def flipD : Mat3 := Matrix.diagonal ![1, 1, -1]

theorem negLastRow_eq (M : Mat3) : negLastRow M = flipD * M := by
  ext i j
  rw [negLastRow, Matrix.updateRow_apply, flipD, Matrix.diagonal_mul]
  fin_cases i <;> simp

theorem flipD_transpose : flipDᵀ = flipD := by
  rw [flipD, Matrix.diagonal_transpose]

theorem flipD_mul_self : flipD * flipD = 1 := by
  rw [flipD, Matrix.diagonal_mul_diagonal]
  have hfun : (fun i => (![1, 1, -1] : Fin 3 → ℚ) i * ![1, 1, -1] i) = fun _ : Fin 3 => (1 : ℚ) := by
    funext i
    fin_cases i <;> norm_num
  rw [hfun, Matrix.diagonal_one]

theorem flipD_det : flipD.det = -1 := by
  rw [flipD, Matrix.det_diagonal, Fin.prod_univ_three]
  norm_num

theorem mulT_orthogonal {A B : Mat3} (hA : A * Aᵀ = 1) (hB : B * Bᵀ = 1) :
    (Bᵀ * Aᵀ) * (Bᵀ * Aᵀ)ᵀ = 1 := by
  have hA2 : Aᵀ * A = 1 := Matrix.mul_eq_one_comm.mp hA
  have hB2 : Bᵀ * B = 1 := Matrix.mul_eq_one_comm.mp hB
  rw [Matrix.transpose_mul, Matrix.transpose_transpose, Matrix.transpose_transpose,
    mul_assoc, ← mul_assoc Aᵀ A, hA2, one_mul, hB2]

theorem svdRotation_orthogonal (U Vt : Mat3) (hU : U * Uᵀ = 1) (hV : Vt * Vtᵀ = 1) :
    svdRotation U Vt * (svdRotation U Vt)ᵀ = 1 := by
  simp only [svdRotation]
  split
  · rw [negLastRow_eq]
    have hFV : (flipD * Vt) * (flipD * Vt)ᵀ = 1 := by
      rw [Matrix.transpose_mul, flipD_transpose, mul_assoc, ← mul_assoc Vt Vtᵀ,
        hV, one_mul, flipD_mul_self]
    exact mulT_orthogonal hU hFV
  · exact mulT_orthogonal hU hV

theorem det_sq_one {M : Mat3} (h : M * Mᵀ = 1) : M.det = 1 ∨ M.det = -1 := by
  have h1 : M.det * M.det = 1 := by
    have h2 := congrArg Matrix.det h
    rwa [Matrix.det_mul, Matrix.det_transpose, Matrix.det_one] at h2
  exact mul_self_eq_one_iff.mp h1

theorem svdRotation_det (U Vt : Mat3) (hU : U * Uᵀ = 1) (hV : Vt * Vtᵀ = 1) :
    (svdRotation U Vt).det = 1 := by
  have hpm : (Vtᵀ * Uᵀ).det = 1 ∨ (Vtᵀ * Uᵀ).det = -1 :=
    det_sq_one (mulT_orthogonal hU hV)
  have hR0det : (Vtᵀ * Uᵀ).det = Vt.det * U.det := by
    rw [Matrix.det_mul, Matrix.det_transpose, Matrix.det_transpose]
  simp only [svdRotation]
  split
  case isTrue hneg =>
    have hd : Vt.det * U.det = -1 := by
      rcases hpm with h1 | h1
      · rw [h1] at hneg
        norm_num at hneg
      · rw [← hR0det]
        exact h1
    rw [negLastRow_eq, Matrix.det_mul, Matrix.det_transpose, Matrix.det_mul,
      Matrix.det_transpose, flipD_det]
    rw [mul_assoc, hd]
    norm_num
  case isFalse hpos =>
    rcases hpm with h1 | h1
    · exact h1
    · exfalso
      rw [h1] at hpos
      norm_num at hpos

theorem setTop_rot (T : Mat4) (R : Mat3) (t : Pt) : rotOf (setTop T R t) = R := by
  ext i j
  simp [rotOf, setTop, Fin.coe_castSucc, i.isLt, j.isLt, Fin.eta]

theorem setTop_transl (T : Mat4) (R : Mat3) (t : Pt) : translOf (setTop T R t) = t := by
  funext i
  simp [translOf, setTop, Fin.coe_castSucc, i.isLt, Fin.eta,
    show ¬ (((3 : Fin 4) : ℕ) < 3) by decide]

theorem setTop_row3 (T : Mat4) (R : Mat3) (t : Pt) (j : Fin 4) :
    setTop T R t 3 j = T 3 j := by
  simp [setTop, show ¬ (((3 : Fin 4) : ℕ) < 3) by decide]

theorem one_row3 (j : Fin 4) : (1 : Mat4) 3 j = bottomRow j := by
  fin_cases j <;> rfl

/-- Claim C3, as amended: whenever the pair validator accepts the inputs,
source and target have equally many points (the pair validator itself never
requires this, and np.dot raises on a mismatch: see the counterexample
below), and the SVD collaborator returns orthogonal factors U and Vt,
pca_registration returns a transform that passes
TransformationValidator.validate; its bottom row is exactly [0, 0, 0, 1],
its rotation block is exactly orthogonal with determinant exactly +1 (so it
is within the validator's 1e-6 tolerances, thanks to the reflection
correction of svdRotation), and its translation is the target centroid minus
the rotation applied to the source centroid. -/
theorem pca_registration_returns_validated (svd : Mat3 → Mat3 × Mat3)
    (source target : List Pt) (U Vt : Mat3)
    (hpair : PointCloudValidator.validate_pair source target = .ok ())
    (hlen : source.length = target.length)
    (hsvd : svd (pcaCov source target) = (U, Vt))
    (hU : U * Uᵀ = 1) (hV : Vt * Vtᵀ = 1) :
    ∃ T, RegistrationAlgorithms.pca_registration svd source target = .ok T
      ∧ TransformationValidator.validate T = .ok ()
      ∧ (∀ j, T 3 j = bottomRow j)
      ∧ rotOf T * (rotOf T)ᵀ = 1
      ∧ (rotOf T).det = 1
      ∧ translOf T = centroid target - (rotOf T).mulVec (centroid source) := by
  have hcov : covMat (source.map fun p => p - centroid source)
      (target.map fun p => p - centroid target) = .ok (pcaCov source target) := by
    unfold covMat pcaCov
    rw [if_pos (by simp [hlen])]
  set R := svdRotation U Vt with hR
  set t := centroid target - R.mulVec (centroid source) with ht
  have hrow : ∀ j, setTop 1 R t 3 j = bottomRow j := fun j => by
    rw [setTop_row3]
    exact one_row3 j
  have horth : rotOf (setTop 1 R t) * (rotOf (setTop 1 R t))ᵀ = 1 := by
    rw [setTop_rot]
    exact svdRotation_orthogonal U Vt hU hV
  have hdet : (rotOf (setTop 1 R t)).det = 1 := by
    rw [setTop_rot]
    exact svdRotation_det U Vt hU hV
  have hok : TransformationValidator.validate (setTop 1 R t) = .ok () :=
    validate_ok_of_exact _ hrow horth hdet
  refine ⟨setTop 1 R t, ?_, hok, hrow, horth, hdet, ?_⟩
  · simp only [RegistrationAlgorithms.pca_registration, hpair, hcov, hsvd, ← hR, ← ht, hok]
  · rw [setTop_rot, setTop_transl]

theorem validate_cloudA : PointCloudValidator.validate cloudA = .ok () := by
  unfold PointCloudValidator.validate
  rw [if_neg (by simp [cloudA, minPoints]), if_neg (by simp [cloudA, maxPoints]),
    if_neg cloudA_not_allZero]

theorem validate_pair_cloudA :
    PointCloudValidator.validate_pair cloudA cloudA = .ok () := by
  simp only [PointCloudValidator.validate_pair, validate_cloudA]
  rw [if_neg (by simp [cloudA])]

theorem pca_registration_returns_validated_witness :
    PointCloudValidator.validate_pair cloudA cloudA = .ok ()
    ∧ cloudA.length = cloudA.length
    ∧ (1 : Mat3) * (1 : Mat3)ᵀ = 1
    ∧ ∃ T, RegistrationAlgorithms.pca_registration (fun _ => (1, 1)) cloudA cloudA = .ok T
        ∧ TransformationValidator.validate T = .ok ()
        ∧ (∀ j, T 3 j = bottomRow j)
        ∧ rotOf T * (rotOf T)ᵀ = 1
        ∧ (rotOf T).det = 1
        ∧ translOf T = centroid cloudA - (rotOf T).mulVec (centroid cloudA) :=
  ⟨validate_pair_cloudA, rfl, by simp,
   pca_registration_returns_validated (fun _ => (1, 1)) cloudA cloudA 1 1
     validate_pair_cloudA rfl rfl (by simp) (by simp)⟩

/-- A 150-point cloud of all-ones points: individually valid, and the pair
validator accepts it against cloudA since it never compares lengths. -/
def cloudB : List Pt := List.replicate 150 fun _ => 1

theorem cloudB_not_allZero : ¬ npAllZero cloudB := by
  intro h
  have h1 := h (fun _ => 1) (by simp [cloudB]) 0
  norm_num [npAtol] at h1

theorem validate_cloudB : PointCloudValidator.validate cloudB = .ok () := by
  unfold PointCloudValidator.validate
  rw [if_neg (by simp [cloudB, minPoints]), if_neg (by simp [cloudB, maxPoints]),
    if_neg cloudB_not_allZero]

theorem validate_pair_cloudA_cloudB :
    PointCloudValidator.validate_pair cloudA cloudB = .ok () := by
  simp only [PointCloudValidator.validate_pair, validate_cloudA, validate_cloudB]
  rw [if_neg (by simp [cloudA, cloudB])]

/-- Claim C3 counterexample: the pair validator accepts the 100-point cloudA
against the 150-point cloudB (it never compares lengths), yet
pca_registration raises RegistrationError there instead of returning a
validated transform: np.dot of the 3x100 and 150x3 centred arrays raises
ValueError, re-raised by the except clause.  The SVD oracle is irrelevant
since the failure precedes it. -/
theorem pca_registration_unequal_lengths_counterexample :
    PointCloudValidator.validate_pair cloudA cloudB = .ok ()
    ∧ RegistrationAlgorithms.pca_registration (fun _ => (1, 1)) cloudA cloudB
        = .error .registration := by
  refine ⟨validate_pair_cloudA_cloudB, ?_⟩
  have hcov : covMat (cloudA.map fun p => p - centroid cloudA)
      (cloudB.map fun p => p - centroid cloudB) = .error .valueError := by
    unfold covMat
    rw [if_neg (by simp [cloudA, cloudB])]
  simp only [RegistrationAlgorithms.pca_registration, validate_pair_cloudA_cloudB, hcov]

theorem validate_one : TransformationValidator.validate (1 : Mat4) = .ok () :=
  validate_ok_of_exact 1 one_row3 (by rw [rotOf_one]; simp)
    (by rw [rotOf_one, Matrix.det_one])

section IcpSpec

variable (svd : Mat3 → Mat3 × Mat3) (source target : List Pt) (T0 : Mat4) (tol : ℝ)

theorem convergedStep_iff (k : ℕ) :
    convergedStep (icpPrev svd source target T0 k) (icpE svd source target T0 k) tol
      ↔ icpConvergedAt svd source target T0 tol k := by
  cases k with
  | zero => simp [convergedStep, icpPrev, icpConvergedAt]
  | succ n => simp [convergedStep, icpPrev, icpConvergedAt]

theorem icpGo_succ (fuel k : ℕ) (T : Mat4) (prev : Option ℝ) :
    icpGo svd source target tol (fuel + 1) k T prev =
      if convergedStep prev (icpError target (source.map (applyTransform T))) tol
      then .ok (T, k + 1, icpError target (source.map (applyTransform T)))
      else icpGo svd source target tol fuel (k + 1)
        (icpUpdate svd target T (source.map (applyTransform T)))
        (some (icpError target (source.map (applyTransform T)))) := rfl

theorem icpGo_state_succ (fuel k : ℕ) :
    icpGo svd source target tol (fuel + 1) k (icpT svd source target T0 k)
        (icpPrev svd source target T0 k) =
      if convergedStep (icpPrev svd source target T0 k) (icpE svd source target T0 k) tol
      then .ok (icpT svd source target T0 k, k + 1, icpE svd source target T0 k)
      else icpGo svd source target tol fuel (k + 1) (icpT svd source target T0 (k + 1))
        (icpPrev svd source target T0 (k + 1)) := rfl

theorem icpGo_ok_or_conv : ∀ fuel k T prev,
    (∃ x, icpGo svd source target tol fuel k T prev = .ok x)
    ∨ icpGo svd source target tol fuel k T prev = .error .convergence := by
  intro fuel
  induction fuel with
  | zero => exact fun k T prev => .inr rfl
  | succ n ih =>
    intro k T prev
    rw [icpGo_succ]
    by_cases hc : convergedStep prev (icpError target (source.map (applyTransform T))) tol
    · rw [if_pos hc]
      exact .inl ⟨_, rfl⟩
    · rw [if_neg hc]
      exact ih (k + 1) _ _

/-- The loop of icp_refinement started at iteration k in the straight-line
state: it raises ConvergenceError exactly when no iteration in the remaining
budget satisfies the convergence test, and a normal return reports the first
converging iteration i as (transform at i, i + 1, mean error at i). -/
theorem icpGo_spec : ∀ fuel k : ℕ,
    (icpGo svd source target tol fuel k (icpT svd source target T0 k)
        (icpPrev svd source target T0 k) = .error .convergence
      ↔ ∀ i, k ≤ i → i < k + fuel → ¬ icpConvergedAt svd source target T0 tol i)
    ∧ (∀ T c e, icpGo svd source target tol fuel k (icpT svd source target T0 k)
          (icpPrev svd source target T0 k) = .ok (T, c, e) →
        ∃ i, k ≤ i ∧ i < k + fuel ∧ icpConvergedAt svd source target T0 tol i
          ∧ (∀ j, k ≤ j → j < i → ¬ icpConvergedAt svd source target T0 tol j)
          ∧ c = i + 1 ∧ T = icpT svd source target T0 i ∧ e = icpE svd source target T0 i) := by
  intro fuel
  induction fuel with
  | zero =>
    intro k
    refine ⟨⟨fun _ i h1 h2 => by omega, fun _ => rfl⟩, fun T c e h => ?_⟩
    simp [icpGo] at h
  | succ n ih =>
    intro k
    rw [icpGo_state_succ]
    by_cases hc : icpConvergedAt svd source target T0 tol k
    · rw [if_pos ((convergedStep_iff svd source target T0 tol k).mpr hc)]
      constructor
      · constructor
        · intro h
          simp at h
        · intro hall
          exact absurd hc (hall k le_rfl (by omega))
      · intro T c e h
        simp only [Except.ok.injEq, Prod.mk.injEq] at h
        obtain ⟨hT, hck, he⟩ := h
        exact ⟨k, le_rfl, by omega, hc, fun j hj1 hj2 => by omega, hck.symm, hT.symm, he.symm⟩
    · rw [if_neg fun hstep => hc ((convergedStep_iff svd source target T0 tol k).mp hstep)]
      obtain ⟨ih1, ih2⟩ := ih (k + 1)
      constructor
      · rw [ih1]
        constructor
        · intro hall i h1 h2
          rcases Nat.eq_or_lt_of_le h1 with rfl | hgt
          · exact hc
          · exact hall i hgt (by omega)
        · intro hall i h1 h2
          exact hall i (by omega) (by omega)
      · intro T c e h
        obtain ⟨i, h1, h2, h3, h4, h5, h6, h7⟩ := ih2 T c e h
        refine ⟨i, by omega, by omega, h3, ?_, h5, h6, h7⟩
        intro j hj1 hj2
        rcases Nat.eq_or_lt_of_le hj1 with rfl | hgt
        · exact hc
        · exact h4 j hgt hj2

/-- Claim C1: for validated inputs, icp_refinement returns a tuple
(transform, iteration count, mean error) exactly when some iteration within
the budget brings the absolute change in mean nearest-neighbour residual
strictly below the tolerance; the count is that (first such) iteration's
0-based index plus one, and otherwise the call raises ConvergenceError
instead of returning a transform. -/
theorem icp_refinement_convergence_spec (maxIterations : ℕ)
    (hpair : PointCloudValidator.validate_pair source target = .ok ())
    (htrans : TransformationValidator.validate T0 = .ok ()) :
    ((∃ T c e, RegistrationAlgorithms.icp_refinement svd source target T0 maxIterations tol
        = .ok (T, c, e))
      ↔ ∃ i < maxIterations, icpConvergedAt svd source target T0 tol i)
    ∧ (∀ T c e, RegistrationAlgorithms.icp_refinement svd source target T0 maxIterations tol
          = .ok (T, c, e) →
        ∃ i < maxIterations, icpConvergedAt svd source target T0 tol i
          ∧ (∀ j < i, ¬ icpConvergedAt svd source target T0 tol j)
          ∧ c = i + 1 ∧ T = icpT svd source target T0 i ∧ e = icpE svd source target T0 i)
    ∧ (RegistrationAlgorithms.icp_refinement svd source target T0 maxIterations tol
          = .error .convergence
      ↔ ∀ i < maxIterations, ¬ icpConvergedAt svd source target T0 tol i) := by
  have hred : RegistrationAlgorithms.icp_refinement svd source target T0 maxIterations tol
      = icpGo svd source target tol maxIterations 0 (icpT svd source target T0 0)
        (icpPrev svd source target T0 0) := by
    simp only [RegistrationAlgorithms.icp_refinement, hpair, htrans]
    rfl
  obtain ⟨herr, hok⟩ := icpGo_spec svd source target T0 tol maxIterations 0
  refine ⟨⟨?_, ?_⟩, ?_, ?_⟩
  · rintro ⟨T, c, e, h⟩
    rw [hred] at h
    obtain ⟨i, -, h2, h3, -, -, -, -⟩ := hok T c e h
    exact ⟨i, by omega, h3⟩
  · rintro ⟨i, hi, hconv⟩
    rcases icpGo_ok_or_conv svd source target tol maxIterations 0
        (icpT svd source target T0 0) (icpPrev svd source target T0 0) with ⟨x, hx⟩ | hx
    · rcases x with ⟨T, c, e⟩
      exact ⟨T, c, e, by rw [hred]; exact hx⟩
    · exact absurd hconv (herr.mp hx i (by omega) (by omega))
  · intro T c e h
    rw [hred] at h
    obtain ⟨i, h1, h2, h3, h4, h5, h6, h7⟩ := hok T c e h
    exact ⟨i, by omega, h3, fun j hj => h4 j (by omega) hj, h5, h6, h7⟩
  · rw [hred, herr]
    constructor
    · intro h i hi
      exact h i (by omega) (by omega)
    · intro h i h1 h2
      exact h i (by omega)

/-- Claim C10: prev_error starts at np.inf, so the convergence test cannot
pass on the first loop iteration: with max_iterations = 1 every validated
call raises ConvergenceError, and every converging call reports an iteration
count of at least 2. -/
theorem icp_refinement_needs_second_iteration
    (hpair : PointCloudValidator.validate_pair source target = .ok ())
    (htrans : TransformationValidator.validate T0 = .ok ()) :
    (∀ tolx : ℝ, RegistrationAlgorithms.icp_refinement svd source target T0 1 tolx
        = .error .convergence)
    ∧ ∀ (maxIterations : ℕ) (tolx : ℝ) (T : Mat4) (c : ℕ) (e : ℝ),
        RegistrationAlgorithms.icp_refinement svd source target T0 maxIterations tolx
          = .ok (T, c, e) → 2 ≤ c := by
  constructor
  · intro tolx
    have hred : RegistrationAlgorithms.icp_refinement svd source target T0 1 tolx
        = icpGo svd source target tolx 1 0 (icpT svd source target T0 0)
          (icpPrev svd source target T0 0) := by
      simp only [RegistrationAlgorithms.icp_refinement, hpair, htrans]
      rfl
    rw [hred, (icpGo_spec svd source target T0 tolx 1 0).1]
    intro i h1 h2 hc
    have hi0 : i = 0 := by omega
    rw [hi0] at hc
    exact absurd hc.1 (by omega)
  · intro maxIterations tolx T c e h
    have hred : RegistrationAlgorithms.icp_refinement svd source target T0 maxIterations tolx
        = icpGo svd source target tolx maxIterations 0 (icpT svd source target T0 0)
          (icpPrev svd source target T0 0) := by
      simp only [RegistrationAlgorithms.icp_refinement, hpair, htrans]
      rfl
    rw [hred] at h
    obtain ⟨i, -, -, h3, -, h5, -, -⟩ :=
      (icpGo_spec svd source target T0 tolx maxIterations 0).2 T c e h
    have hipos : 0 < i := h3.1
    omega

end IcpSpec

theorem icp_refinement_convergence_spec_witness :
    PointCloudValidator.validate_pair cloudA cloudA = .ok ()
    ∧ TransformationValidator.validate (1 : Mat4) = .ok ()
    ∧ (RegistrationAlgorithms.icp_refinement (fun _ => (1, 1)) cloudA cloudA 1 5 1
        = .error .convergence
      ↔ ∀ i < 5, ¬ icpConvergedAt (fun _ => (1, 1)) cloudA cloudA 1 1 i) :=
  ⟨validate_pair_cloudA, validate_one,
   (icp_refinement_convergence_spec (fun _ => (1, 1)) cloudA cloudA 1 1 5
     validate_pair_cloudA validate_one).2.2⟩

theorem icp_refinement_needs_second_iteration_witness :
    PointCloudValidator.validate_pair cloudA cloudA = .ok ()
    ∧ TransformationValidator.validate (1 : Mat4) = .ok ()
    ∧ RegistrationAlgorithms.icp_refinement (fun _ => (1, 1)) cloudA cloudA 1 1 1
        = .error .convergence :=
  ⟨validate_pair_cloudA, validate_one,
   (icp_refinement_needs_second_iteration (fun _ => (1, 1)) cloudA cloudA 1
     validate_pair_cloudA validate_one).1 1⟩

end CascadedFit
